import Mathlib

/-!
Shallow embedding of the libdns-netlify client (`client.go`) and proofs of
the specification's claims about it.

The embedding models the pure request-construction and response-classification
logic of the client directly from the source.  Network effects are represented
by explicit oracles (`transport` functions) passed as arguments, and the
provider's mutable zone cache is explicit state threaded through `getZoneInfo`.
JSON documents are modelled as association lists of field name / value pairs.
-/

set_option autoImplicit false

namespace NetlifyClient

/-- HTTP method of a request, as used by the client (GET, POST, PATCH). -/
inductive Method where
  | get
  | post
  | patch
deriving DecidableEq, Repr

/-- A JSON field value as it appears in the request/response documents the
client builds: the wire records only carry string and integer fields. -/
inductive JsonVal where
  | str (s : String)
  | num (n : Nat)
deriving DecidableEq, Repr

/-- An outgoing API request, as constructed by the client: method, URL path
(the `fmt.Sprintf` part before the `?`), query parameters (the `url.Values`
that Go encodes into the URL), and an optional JSON body. -/
structure APIRequest where
  method : Method
  url : String
  query : List (String × String)
  body : Option (List (String × JsonVal))
deriving DecidableEq, Repr

/-- Base URL of the provider API (`const baseURL` in client.go). -/
def baseURL : String := "https://api.netlify.com/api/v1"

/-- A transport-level failure: the HTTP round trip itself failed
(`http.DefaultClient.Do` returned an error) or the response body could not
be read (`io.ReadAll` returned an error). -/
inductive TransportErr where
  | connErr (msg : String)
  | bodyReadErr (msg : String)
deriving DecidableEq, Repr

/-- What the HTTP layer hands back to `doAPIRequest` for one request:
either no response at all (a connection-level failure), or a response with a
status code whose body read may itself fail. The body is raw bytes. -/
inductive HTTPOutcome where
  | failure (e : TransportErr)
  | response (statusCode : Nat) (bodyRead : Except TransportErr (List Nat))
deriving Repr

/-- The error taxonomy of `doAPIRequest`: a transport failure propagated
unchanged, or a constructed error carrying the numeric HTTP status code
(`fmt.Errorf("got error status: HTTP %d", resp.StatusCode)`). -/
inductive APIError where
  | transport (e : TransportErr)
  | status (code : Nat)
deriving DecidableEq, Repr

/-- Embedding of `doAPIRequest` (client.go lines 154-181), given the outcome
of the HTTP round trip: a connection error is returned unchanged; otherwise
the body is read (a read error is returned unchanged); then any status code
`>= 400` becomes an error carrying that code, and a status `< 400` succeeds
with the raw body bytes.  There is no retry: the function classifies the one
outcome it is given. -/
def doAPIRequest (outcome : HTTPOutcome) : Except APIError (List Nat) :=
  match outcome with
  | .failure e => .error (.transport e)
  | .response statusCode bodyRead =>
    match bodyRead with
    | .error e => .error (.transport e)
    | .ok bs =>
      if statusCode ≥ 400 then .error (.status statusCode)
      else .ok bs

/-- The `Authorization` header value attached by `doAPIRequest`
(client.go line 155). -/
def authHeader (token : String) : String := "Bearer " ++ token

/-- C5: for a received HTTP response whose body is readable, `doAPIRequest`
succeeds and returns the raw body bytes iff the status code is `< 400`; any
status `>= 400` produces the error carrying that numeric status code. -/
theorem doAPIRequest_status_classification (statusCode : Nat) (bs : List Nat) :
    (doAPIRequest (.response statusCode (.ok bs)) = .ok bs ↔ statusCode < 400) ∧
    (400 ≤ statusCode →
      doAPIRequest (.response statusCode (.ok bs)) = .error (.status statusCode)) := by
  constructor
  · constructor
    · intro h
      by_contra hlt
      rw [Nat.not_lt] at hlt
      simp only [doAPIRequest] at h
      rw [if_pos hlt] at h
      cases h
    · intro hlt
      simp [doAPIRequest, Nat.not_le.mpr hlt]
  · intro hge
    simp [doAPIRequest, hge]

/-- Witness for C5 at a concrete failing status: a 500 response with an empty
body surfaces as an API failure carrying status 500. -/
theorem doAPIRequest_status_classification_witness :
    doAPIRequest (.response 500 (.ok [7])) = .error (.status 500) :=
  (doAPIRequest_status_classification 500 [7]).2 (by decide)

/-- C8: transport-level failures are returned unchanged as `.transport`
errors, distinct from the `.status` errors constructed for HTTP error
responses, so a caller can always tell "never got a response" (or "body
unreadable") apart from "got an error response". -/
theorem doAPIRequest_distinguishes_failures (e : TransportErr) (statusCode : Nat)
    (bs : List Nat) :
    (doAPIRequest (.failure e) = .error (.transport e)) ∧
    (doAPIRequest (.response statusCode (.error e)) = .error (.transport e)) ∧
    (400 ≤ statusCode →
      doAPIRequest (.response statusCode (.ok bs)) = .error (.status statusCode)) ∧
    (∀ c, APIError.transport e ≠ APIError.status c) := by
  refine ⟨rfl, rfl, ?_, ?_⟩
  · intro hge
    simp [doAPIRequest, hge]
  · intro c h
    cases h

/-- Witness for C8 at concrete inputs: a connection error comes back
unchanged, and it is a different error value from the one a 500 response
produces. -/
theorem doAPIRequest_distinguishes_failures_witness :
    doAPIRequest (.failure (.connErr "refused")) =
      .error (.transport (.connErr "refused")) ∧
    doAPIRequest (.response 500 (.ok [])) = .error (.status 500) := by
  refine ⟨(doAPIRequest_distinguishes_failures (.connErr "refused") 500 []).1, ?_⟩
  exact (doAPIRequest_distinguishes_failures (.connErr "refused") 500 []).2.2.1
    (by decide)

/-- A provider zone as decoded from the API (`netlifyZone`): an opaque
identifier and the fully-qualified zone name. -/
structure NetlifyZone where
  id : String
  name : String
deriving DecidableEq, Repr

/-- The provider wire form of a DNS record (`netlifyDNSRecord`): identity,
owning zone, and the record data, with the generic value concept carried in
the provider's content field. -/
structure NetlifyDNSRecord where
  id : String
  dnsZoneID : String
  type : String
  name : String
  content : String
  ttl : Nat
deriving DecidableEq, Repr

/-- The provider-agnostic record (`libdns.Record` as used by this client):
zone-relative name, type, value and TTL. -/
structure LibdnsRecord where
  type : String
  name : String
  value : String
  ttl : Nat
deriving DecidableEq, Repr

/-- Modelled from the spec: the translation `netlifyRecord` from the
provider-agnostic record to the wire form is defined in the repository's
model file, which is not among the sources here; its call site in
`createRecord` (client.go line 17) shows it takes only the record.  Per the
spec's translator contract it maps fields one-to-one, renaming the generic
"Value" to the provider's "Content"; identity fields are absent before
creation. -/
def netlifyRecord (r : LibdnsRecord) : NetlifyDNSRecord :=
  { id := ""
    dnsZoneID := ""
    type := r.type
    name := r.name
    content := r.value
    ttl := r.ttl }

/-- Modelled from the spec: the JSON marshalling of `netlifyDNSRecord`
(the struct tags live in the repository's model file, not among the sources
here).  Per the spec's wire model, zero-value fields are absent from the
encoded document ("the wire model uses zero-value-as-absent for optional
fields"), so each field is emitted iff it is non-empty (non-zero for TTL). -/
def marshalRecord (r : NetlifyDNSRecord) : List (String × JsonVal) :=
  (if r.id = "" then [] else [("id", JsonVal.str r.id)]) ++
  (if r.dnsZoneID = "" then [] else [("dns_zone_id", JsonVal.str r.dnsZoneID)]) ++
  (if r.type = "" then [] else [("type", JsonVal.str r.type)]) ++
  (if r.name = "" then [] else [("name", JsonVal.str r.name)]) ++
  (if r.content = "" then [] else [("content", JsonVal.str r.content)]) ++
  (if r.ttl = 0 then [] else [("ttl", JsonVal.num r.ttl)])

/-- The field names present in a marshalled JSON document. -/
def bodyKeys (b : List (String × JsonVal)) : List String := b.map (fun p => p.1)

/-- Modelled from the spec: `libdns.AbsoluteName` (from the external libdns
package, not among the sources here), per the spec's absolute-naming rule:
an empty or "@" relative name maps to the zone apex, otherwise the relative
name is combined with the zone name. -/
def absoluteName (relName zone : String) : String :=
  if relName = "" ∨ relName = "@" then zone
  else relName ++ "." ++ zone

/-- Embedding of the request built by `createRecord` (client.go lines 16-26):
the record is translated to wire form, marshalled to JSON, and POSTed to
`{base}/dns_zones/{zoneID}/dns_records`. -/
def createRecordRequest (zoneInfo : NetlifyZone) (record : LibdnsRecord) :
    APIRequest :=
  { method := .post
    url := baseURL ++ "/dns_zones/" ++ zoneInfo.id ++ "/dns_records"
    query := []
    body := some (marshalRecord (netlifyRecord record)) }

/-- Embedding of `createRecord` (client.go lines 16-41) over an oracle
`respond` standing for the `doAPIRequest` round trip followed by
`json.Unmarshal` into a `netlifyDNSRecord`: the constructed request is issued
and the decoded result (or the error) is returned unchanged. -/
def createRecord (zoneInfo : NetlifyZone) (record : LibdnsRecord)
    (respond : APIRequest → Except APIError NetlifyDNSRecord) :
    Except APIError NetlifyDNSRecord :=
  respond (createRecordRequest zoneInfo record)

/-- Embedding of the request built by `updateRecord` (client.go lines 45-58):
the new record is marshalled to JSON and PATCHed to
`{base}/dns_zones/{zoneID}/dns_records/{recordID}`, with the zone ID and
record ID taken from the old record. -/
def updateRecordRequest (oldRec newRec : NetlifyDNSRecord) : APIRequest :=
  { method := .patch
    url := baseURL ++ "/dns_zones/" ++ oldRec.dnsZoneID ++ "/dns_records/" ++
      oldRec.id
    query := []
    body := some (marshalRecord newRec) }

/-- Embedding of `updateRecord` (client.go lines 45-74) over an oracle
`respond` standing for `doAPIRequest` plus `json.Unmarshal`. -/
def updateRecord (oldRec newRec : NetlifyDNSRecord)
    (respond : APIRequest → Except APIError NetlifyDNSRecord) :
    Except APIError NetlifyDNSRecord :=
  respond (updateRecordRequest oldRec newRec)

/-- Embedding of the request built by `getDNSRecords` (client.go lines
77-85): a GET against `{base}/zones/{zoneID}/dns_records` with query
parameters `type` and `name` (the record's absolute name), plus `content`
exactly when `matchContent` is set. -/
def getDNSRecordsRequest (zoneInfo : NetlifyZone) (rec : LibdnsRecord)
    (matchContent : Bool) : APIRequest :=
  let qs := [("type", rec.type), ("name", absoluteName rec.name zoneInfo.name)]
  let qs := if matchContent then qs ++ [("content", rec.value)] else qs
  { method := .get
    url := baseURL ++ "/zones/" ++ zoneInfo.id ++ "/dns_records"
    query := qs
    body := none }

/-- Embedding of `getDNSRecords` (client.go lines 76-104) over an oracle
`respond` standing for `doAPIRequest` plus `json.Unmarshal` into a list of
wire records. -/
def getDNSRecords (zoneInfo : NetlifyZone) (rec : LibdnsRecord)
    (matchContent : Bool)
    (respond : APIRequest → Except APIError (List NetlifyDNSRecord)) :
    Except APIError (List NetlifyDNSRecord) :=
  respond (getDNSRecordsRequest zoneInfo rec matchContent)

/-- Embedding of `strings.TrimRight(s, ".")` (client.go line 117): removes
all trailing `.` characters. -/
def trimRightDots (s : String) : String :=
  ⟨(s.data.reverse.dropWhile (fun c => c = '.')).reverse⟩

/-- Lookup in the zone cache, modelled as an association list with Go map
semantics (the most recently stored binding for a key wins). -/
def lookupZ (m : List (String × NetlifyZone)) (k : String) : Option NetlifyZone :=
  match m with
  | [] => none
  | (k', v) :: rest => if k' = k then some v else lookupZ rest k

/-- The provider's mutable state relevant to zone resolution: the zone cache
`p.zones`, which starts out as a nil map (`none`) on a zero-value Provider
and is initialized to an empty map by `getZoneInfo` before use. -/
structure ProviderState where
  zones : Option (List (String × NetlifyZone))
deriving DecidableEq, Repr

/-- The zone-listing request built by `getZoneInfo` (client.go lines
118-120): a GET against `{base}/dns_zones` filtered by exact name. -/
def zoneListRequest (zoneName : String) : APIRequest :=
  { method := .get
    url := baseURL ++ "/dns_zones"
    query := [("name", zoneName)]
    body := none }

/-- The outcome of one `getZoneInfo` call: the provider state afterwards, the
network requests that were issued (at most one), and the result. -/
structure GetZoneInfoRun where
  state : ProviderState
  calls : List APIRequest
  result : Except String NetlifyZone
deriving Repr

/-- Embedding of `getZoneInfo` (client.go lines 106-147) over an oracle
`transport` standing for the `doAPIRequest` round trip followed by
`json.Unmarshal` into a list of zones (errors carried as strings).
Faithful to the source's order of operations: the cache is initialized if
nil, the cache is checked with the *original* `zoneName`, the name is
trimmed of trailing dots only *after* that check, the zone-listing query uses
the trimmed name, a result list of length other than one is an error
reporting the count and the (trimmed) queried name, and on success the zone
is stored under the trimmed name. -/
def getZoneInfo (s : ProviderState) (zoneName : String)
    (transport : APIRequest → Except String (List NetlifyZone)) :
    GetZoneInfoRun :=
  let zs := s.zones.getD []
  match lookupZ zs zoneName with
  | some zone => { state := ⟨some zs⟩, calls := [], result := .ok zone }
  | none =>
    let trimmed := trimRightDots zoneName
    let req := zoneListRequest trimmed
    match transport req with
    | .error e => { state := ⟨some zs⟩, calls := [req], result := .error e }
    | .ok zones =>
      match zones with
      | [z] =>
        { state := ⟨some ((trimmed, z) :: zs)⟩
          calls := [req]
          result := .ok z }
      | _ =>
        { state := ⟨some zs⟩
          calls := [req]
          result := .error ("expected 1 zone, got " ++ toString zones.length ++
            " for " ++ trimmed) }

/-- The entries of the zone cache in a provider state (empty for a nil map). -/
def cacheEntries (s : ProviderState) : List (String × NetlifyZone) :=
  s.zones.getD []

/-- Characterization of the field names present in a marshalled wire record:
a key appears iff it names a field and that field is non-empty (non-zero for
TTL). -/
theorem mem_bodyKeys_marshalRecord (r : NetlifyDNSRecord) (k : String) :
    k ∈ bodyKeys (marshalRecord r) ↔
      (k = "id" ∧ r.id ≠ "") ∨ (k = "dns_zone_id" ∧ r.dnsZoneID ≠ "") ∨
      (k = "type" ∧ r.type ≠ "") ∨ (k = "name" ∧ r.name ≠ "") ∨
      (k = "content" ∧ r.content ≠ "") ∨ (k = "ttl" ∧ r.ttl ≠ 0) := by
  unfold bodyKeys marshalRecord
  split_ifs <;> simp_all

/-- C4: `updateRecord` issues a PATCH to
`{base}/dns_zones/{zoneID}/dns_records/{recordID}` (IDs taken from the old
record) whose JSON body contains exactly the non-empty fields of the new
record; in particular `type`, `name` and `content` are omitted when empty
rather than sent as empty strings, while a non-zero TTL is present. -/
theorem updateRecord_patches_only_nonempty_fields (oldRec newRec : NetlifyDNSRecord) :
    (updateRecordRequest oldRec newRec).method = .patch ∧
    (updateRecordRequest oldRec newRec).url =
      baseURL ++ "/dns_zones/" ++ oldRec.dnsZoneID ++ "/dns_records/" ++
        oldRec.id ∧
    (updateRecordRequest oldRec newRec).body = some (marshalRecord newRec) ∧
    ("ttl" ∈ bodyKeys (marshalRecord newRec) ↔ newRec.ttl ≠ 0) ∧
    ("type" ∈ bodyKeys (marshalRecord newRec) ↔ newRec.type ≠ "") ∧
    ("name" ∈ bodyKeys (marshalRecord newRec) ↔ newRec.name ≠ "") ∧
    ("content" ∈ bodyKeys (marshalRecord newRec) ↔ newRec.content ≠ "") := by
  refine ⟨rfl, rfl, rfl, ?_, ?_, ?_, ?_⟩ <;>
    rw [mem_bodyKeys_marshalRecord] <;> simp

/-- C7: the request built by `getDNSRecords` is a GET whose query carries a
`type` parameter equal to the record's type and a `name` parameter equal to
the record's absolute name, and carries a `content` parameter — equal to the
record's value — exactly when `matchContent` is true. -/
theorem getDNSRecords_query_params (zoneInfo : NetlifyZone) (rec : LibdnsRecord)
    (matchContent : Bool) :
    (getDNSRecordsRequest zoneInfo rec matchContent).method = .get ∧
    ("type", rec.type) ∈ (getDNSRecordsRequest zoneInfo rec matchContent).query ∧
    ("name", absoluteName rec.name zoneInfo.name) ∈
      (getDNSRecordsRequest zoneInfo rec matchContent).query ∧
    (∀ v, ("content", v) ∈ (getDNSRecordsRequest zoneInfo rec matchContent).query ↔
      (matchContent = true ∧ v = rec.value)) := by
  cases matchContent <;> simp [getDNSRecordsRequest]

/-- C6 counterexample: for the zone `{ID:"z1", Name:"example.com"}` and the
record `{Type:"TXT", Name:"foo", Value:"bar", TTL:300}`, the body of the
request built by `createRecord` carries the name `"foo"` as supplied, not the
absolute name `"foo.example.com"`; indeed the request does not depend on the
zone's name at all (only on its ID). -/
theorem createRecordRequest_relative_name_cx :
    ("name", JsonVal.str "foo") ∈
      ((createRecordRequest ⟨"z1", "example.com"⟩
        ⟨"TXT", "foo", "bar", 300⟩).body.getD []) ∧
    absoluteName "foo" "example.com" = "foo.example.com" ∧
    ("name", JsonVal.str "foo.example.com") ∉
      ((createRecordRequest ⟨"z1", "example.com"⟩
        ⟨"TXT", "foo", "bar", 300⟩).body.getD []) ∧
    createRecordRequest ⟨"z1", "example.com"⟩ ⟨"TXT", "foo", "bar", 300⟩ =
      createRecordRequest ⟨"z1", "other.invalid"⟩ ⟨"TXT", "foo", "bar", 300⟩ := by
  refine ⟨?_, rfl, ?_, rfl⟩ <;> decide

/-- C6 (amended): `createRecord` serializes the record to the wire form with
the generic value carried in the provider's `content` field and the record's
name carried as supplied by the caller (the zone's name is never consulted —
only its ID, for the URL), POSTs it to `{base}/dns_zones/{zoneID}/dns_records`,
and returns the transport's decoded response — the created record with its
provider-assigned ID — unchanged. -/
theorem createRecord_request_shape (zoneInfo : NetlifyZone) (record : LibdnsRecord)
    (respond : APIRequest → Except APIError NetlifyDNSRecord) :
    createRecord zoneInfo record respond =
      respond (createRecordRequest zoneInfo record) ∧
    (createRecordRequest zoneInfo record).method = .post ∧
    (createRecordRequest zoneInfo record).url =
      baseURL ++ "/dns_zones/" ++ zoneInfo.id ++ "/dns_records" ∧
    (createRecordRequest zoneInfo record).body =
      some (marshalRecord (netlifyRecord record)) ∧
    (record.value ≠ "" →
      ("content", JsonVal.str record.value) ∈ marshalRecord (netlifyRecord record)) ∧
    (record.name ≠ "" →
      ("name", JsonVal.str record.name) ∈ marshalRecord (netlifyRecord record)) ∧
    (∀ z : NetlifyZone, z.id = zoneInfo.id →
      createRecordRequest z record = createRecordRequest zoneInfo record) := by
  refine ⟨rfl, rfl, rfl, rfl, ?_, ?_, ?_⟩
  · intro hv
    unfold marshalRecord netlifyRecord
    split_ifs <;> simp_all
  · intro hn
    unfold marshalRecord netlifyRecord
    split_ifs <;> simp_all
  · intro z hz
    simp [createRecordRequest, hz]

/-- Witness for C6's amended theorem at concrete inputs: the create request
for a TXT record carries `content` = "bar" and `name` = "foo". -/
theorem createRecord_request_shape_witness :
    ("content", JsonVal.str "bar") ∈
      marshalRecord (netlifyRecord ⟨"TXT", "foo", "bar", 300⟩) ∧
    ("name", JsonVal.str "foo") ∈
      marshalRecord (netlifyRecord ⟨"TXT", "foo", "bar", 300⟩) := by
  refine ⟨?_, ?_⟩
  · exact (createRecord_request_shape ⟨"z1", "example.com"⟩ ⟨"TXT", "foo", "bar", 300⟩
      (fun _ => Except.error (.status 0))).2.2.2.2.1 (by decide)
  · exact (createRecord_request_shape ⟨"z1", "example.com"⟩ ⟨"TXT", "foo", "bar", 300⟩
      (fun _ => Except.error (.status 0))).2.2.2.2.2.1 (by decide)

/-- Run equation for `getZoneInfo` on a cache hit: the cached zone is
returned, no request is issued, and the cache entries are unchanged. -/
theorem getZoneInfo_hit (s : ProviderState) (zoneName : String)
    (transport : APIRequest → Except String (List NetlifyZone)) (z : NetlifyZone)
    (h : lookupZ (cacheEntries s) zoneName = some z) :
    getZoneInfo s zoneName transport =
      ⟨⟨some (cacheEntries s)⟩, [], .ok z⟩ := by
  have h' : lookupZ (s.zones.getD []) zoneName = some z := h
  simp only [getZoneInfo, h', cacheEntries]

/-- Run equation for `getZoneInfo` on a cache miss where the zone-listing
query returns exactly one zone: that zone is stored under the trimmed name
and returned. -/
theorem getZoneInfo_miss_single (s : ProviderState) (zoneName : String)
    (transport : APIRequest → Except String (List NetlifyZone)) (z : NetlifyZone)
    (h : lookupZ (cacheEntries s) zoneName = none)
    (ht : transport (zoneListRequest (trimRightDots zoneName)) = .ok [z]) :
    getZoneInfo s zoneName transport =
      ⟨⟨some ((trimRightDots zoneName, z) :: cacheEntries s)⟩,
       [zoneListRequest (trimRightDots zoneName)], .ok z⟩ := by
  have h' : lookupZ (s.zones.getD []) zoneName = none := h
  simp only [getZoneInfo, h', ht, cacheEntries]

/-- Run equation for `getZoneInfo` on a cache miss where the transport (or
response decoding) fails: the error propagates and the cache entries are
unchanged. -/
theorem getZoneInfo_miss_err (s : ProviderState) (zoneName : String)
    (transport : APIRequest → Except String (List NetlifyZone)) (e : String)
    (h : lookupZ (cacheEntries s) zoneName = none)
    (ht : transport (zoneListRequest (trimRightDots zoneName)) = .error e) :
    getZoneInfo s zoneName transport =
      ⟨⟨some (cacheEntries s)⟩, [zoneListRequest (trimRightDots zoneName)],
       .error e⟩ := by
  have h' : lookupZ (s.zones.getD []) zoneName = none := h
  simp only [getZoneInfo, h', ht, cacheEntries]

/-- Run equation for `getZoneInfo` on a cache miss where the zone-listing
query returns a list of length other than one: the count-mismatch error is
returned and the cache entries are unchanged. -/
theorem getZoneInfo_miss_mismatch (s : ProviderState) (zoneName : String)
    (transport : APIRequest → Except String (List NetlifyZone))
    (zones : List NetlifyZone)
    (h : lookupZ (cacheEntries s) zoneName = none)
    (ht : transport (zoneListRequest (trimRightDots zoneName)) = .ok zones)
    (hlen : zones.length ≠ 1) :
    getZoneInfo s zoneName transport =
      ⟨⟨some (cacheEntries s)⟩, [zoneListRequest (trimRightDots zoneName)],
       .error ("expected 1 zone, got " ++ toString zones.length ++ " for " ++
         trimRightDots zoneName)⟩ := by
  have h' : lookupZ (s.zones.getD []) zoneName = none := h
  match zones, hlen with
  | [], _ => simp only [getZoneInfo, h', ht, cacheEntries, List.length_nil]
  | z₁ :: z₂ :: rest, _ =>
    simp only [getZoneInfo, h', ht, cacheEntries]
  | [z], hlen => exact absurd rfl hlen

/-- C3: when the zone-listing query returns a list of length other than one,
`getZoneInfo` fails with the error naming the count and the queried (trimmed)
name, and the zone cache entries are exactly as before — nothing is stored. -/
theorem getZoneInfo_count_mismatch (s : ProviderState) (zoneName : String)
    (transport : APIRequest → Except String (List NetlifyZone))
    (zones : List NetlifyZone)
    (hmiss : lookupZ (cacheEntries s) zoneName = none)
    (ht : transport (zoneListRequest (trimRightDots zoneName)) = .ok zones)
    (hlen : zones.length ≠ 1) :
    (getZoneInfo s zoneName transport).result =
      .error ("expected 1 zone, got " ++ toString zones.length ++ " for " ++
        trimRightDots zoneName) ∧
    cacheEntries (getZoneInfo s zoneName transport).state = cacheEntries s := by
  rw [getZoneInfo_miss_mismatch s zoneName transport zones hmiss ht hlen]
  exact ⟨rfl, rfl⟩

/-- Witness for C3 at a concrete input: an empty zone listing for
"example.com" on an empty cache yields the count-mismatch error and stores
nothing. -/
theorem getZoneInfo_count_mismatch_witness :
    (getZoneInfo ⟨none⟩ "example.com" (fun _ => Except.ok [])).result =
      .error ("expected 1 zone, got " ++
        toString (List.length ([] : List NetlifyZone)) ++ " for " ++
        trimRightDots "example.com") ∧
    cacheEntries (getZoneInfo ⟨none⟩ "example.com" (fun _ => Except.ok [])).state =
      cacheEntries ⟨none⟩ :=
  getZoneInfo_count_mismatch ⟨none⟩ "example.com" (fun _ => Except.ok []) []
    rfl rfl (by decide)

/-- C10: on a provider whose zone cache is still the nil map (zero-value
provider), `getZoneInfo` behaves identically — same result, same issued
requests, same final state — to a provider with an explicitly-initialized
empty cache, because the map is initialized before any read or write. -/
theorem getZoneInfo_nil_cache_like_empty (zoneName : String)
    (transport : APIRequest → Except String (List NetlifyZone)) :
    getZoneInfo ⟨none⟩ zoneName transport =
      getZoneInfo ⟨some []⟩ zoneName transport := rfl

/-- Adding a binding in front of the cache preserves the presence of every
key already present. -/
theorem lookupZ_cons_isSome (m : List (String × NetlifyZone)) (t : String)
    (z : NetlifyZone) (k : String) (h : (lookupZ m k).isSome) :
    (lookupZ ((t, z) :: m) k).isSome := by
  show (if t = k then some z else lookupZ m k).isSome
  split_ifs <;> simp_all

/-- C9 counterexample: an existing cache entry can be overwritten.  With
"example.com" cached as zone `z1`, resolving "example.com." (which misses the
cache, since the lookup uses the untrimmed name) against a provider now
returning zone `z2` stores `z2` under the trimmed name "example.com",
shadowing the old entry: a later lookup of "example.com" returns `z2`, not
the originally cached `z1`. -/
theorem getZoneInfo_overwrites_entry_cx :
    lookupZ (cacheEntries (getZoneInfo
        ⟨some [("example.com", ⟨"z1", "example.com"⟩)]⟩ "example.com."
        (fun _ => Except.ok [⟨"z2", "example.com"⟩])).state) "example.com" =
      some ⟨"z2", "example.com"⟩ ∧
    (⟨"z2", "example.com"⟩ : NetlifyZone) ≠ ⟨"z1", "example.com"⟩ := by
  decide

/-- C9 (amended): the set of cached names only grows; `getZoneInfo` on a name
present in the cache returns the cached zone, issues no request and leaves
the entries unchanged; and whenever the entries change at all, the call was a
cache miss for the queried name, the fetch returned exactly one zone, and the
change is exactly one new binding, stored under the trimmed name — which can
shadow an existing entry when the queried name carries trailing dots. -/
theorem getZoneInfo_cache_discipline (s : ProviderState) (zoneName : String)
    (transport : APIRequest → Except String (List NetlifyZone)) :
    (∀ k, (lookupZ (cacheEntries s) k).isSome →
      (lookupZ (cacheEntries (getZoneInfo s zoneName transport).state) k).isSome) ∧
    (∀ z, lookupZ (cacheEntries s) zoneName = some z →
      (getZoneInfo s zoneName transport).result = .ok z ∧
      cacheEntries (getZoneInfo s zoneName transport).state = cacheEntries s ∧
      (getZoneInfo s zoneName transport).calls = []) ∧
    (cacheEntries (getZoneInfo s zoneName transport).state ≠ cacheEntries s →
      lookupZ (cacheEntries s) zoneName = none ∧
      ∃ z, transport (zoneListRequest (trimRightDots zoneName)) = Except.ok [z] ∧
        cacheEntries (getZoneInfo s zoneName transport).state =
          (trimRightDots zoneName, z) :: cacheEntries s) := by
  rcases hl : lookupZ (cacheEntries s) zoneName with _ | z₀
  · rcases ht : transport (zoneListRequest (trimRightDots zoneName)) with e | zones
    · rw [getZoneInfo_miss_err s zoneName transport e hl ht]
      refine ⟨fun k hk => hk, ?_, ?_⟩
      · intro z hz
        cases hz
      · intro hne
        exact absurd rfl hne
    · match zones with
      | [z] =>
        rw [getZoneInfo_miss_single s zoneName transport z hl ht]
        refine ⟨fun k hk => lookupZ_cons_isSome _ _ _ _ hk, ?_, ?_⟩
        · intro z' hz
          cases hz
        · intro _
          exact ⟨rfl, z, rfl, rfl⟩
      | [] =>
        rw [getZoneInfo_miss_mismatch s zoneName transport [] hl ht (by decide)]
        refine ⟨fun k hk => hk, ?_, ?_⟩
        · intro z hz
          cases hz
        · intro hne
          exact absurd rfl hne
      | z₁ :: z₂ :: rest =>
        rw [getZoneInfo_miss_mismatch s zoneName transport (z₁ :: z₂ :: rest) hl ht
          (by simp)]
        refine ⟨fun k hk => hk, ?_, ?_⟩
        · intro z hz
          cases hz
        · intro hne
          exact absurd rfl hne
  · rw [getZoneInfo_hit s zoneName transport z₀ hl]
    refine ⟨fun k hk => hk, ?_, ?_⟩
    · intro z hz
      cases hz
      exact ⟨rfl, rfl, rfl⟩
    · intro hne
      exact absurd rfl hne

/-- Witness for C9's amended theorem at a concrete input: with "example.com"
already cached, `getZoneInfo` returns the cached zone even though the
transport is down. -/
theorem getZoneInfo_cache_discipline_witness :
    (getZoneInfo ⟨some [("example.com", ⟨"z1", "example.com"⟩)]⟩ "example.com"
      (fun _ => Except.error "down")).result = .ok ⟨"z1", "example.com"⟩ :=
  ((getZoneInfo_cache_discipline
      ⟨some [("example.com", ⟨"z1", "example.com"⟩)]⟩ "example.com"
      (fun _ => Except.error "down")).2.1
    ⟨"z1", "example.com"⟩ (by decide)).1

/-- C1: evaluating the code at the failing input.  After a successful
`getZoneInfo "example.com"` (which caches the zone under "example.com"),
resolving "example.com." still issues a network request — the cache is
checked with the untrimmed name and the name is trimmed only afterwards, so
the trailing-dot form never hits the entry stored for "example.com", contrary
to the claim that it is served from that entry. -/
theorem getZoneInfo_trailing_dot_not_served_from_cache :
    ((getZoneInfo ⟨none⟩ "example.com"
        (fun _ => Except.ok [⟨"z1", "example.com"⟩])).result =
      Except.ok ⟨"z1", "example.com"⟩) ∧
    lookupZ (cacheEntries (getZoneInfo ⟨none⟩ "example.com"
        (fun _ => Except.ok [⟨"z1", "example.com"⟩])).state) "example.com" =
      some ⟨"z1", "example.com"⟩ ∧
    ((getZoneInfo (getZoneInfo ⟨none⟩ "example.com"
        (fun _ => Except.ok [⟨"z1", "example.com"⟩])).state "example.com."
        (fun _ => Except.ok [⟨"z1", "example.com"⟩])).calls.length = 1) :=
  ⟨rfl, rfl, rfl⟩

/-- C2: evaluating the code at the failing input.  Resolving "example.com."
twice in sequence issues two network requests: the first call succeeds but
stores the zone under the trimmed key "example.com", and the second call
looks up the untrimmed "example.com.", misses, and fetches again — contrary
to the claim that the second call is served from the cache. -/
theorem getZoneInfo_dotted_name_two_calls :
    ((getZoneInfo ⟨none⟩ "example.com."
        (fun _ => Except.ok [⟨"z1", "example.com"⟩])).result =
      Except.ok ⟨"z1", "example.com"⟩) ∧
    ((getZoneInfo ⟨none⟩ "example.com."
        (fun _ => Except.ok [⟨"z1", "example.com"⟩])).calls.length = 1) ∧
    ((getZoneInfo (getZoneInfo ⟨none⟩ "example.com."
        (fun _ => Except.ok [⟨"z1", "example.com"⟩])).state "example.com."
        (fun _ => Except.ok [⟨"z1", "example.com"⟩])).calls.length = 1) :=
  ⟨rfl, rfl, rfl⟩

end NetlifyClient
